import Mathlib

/-!
# Verified model of the RBAC identity module

A shallow embedding of the domain layer (value objects, `User`, `Role`,
`Permission` entities), the `AuthorizationService` domain service and the
use-case layer (`LoginUserUseCase`, `UpdateRoleUseCase`, `DeleteRoleUseCase`,
`ListUsersUseCase`) of the repository, together with theorems about their
behaviour.

Modelling conventions:
* JavaScript strings are modelled as `JStr := List Nat` (lists of UTF-16
  code units).  `String.prototype.toLowerCase` / `toUpperCase` / `trim`
  are modelled on the ASCII range, which is the range the domain data uses.
* `async` repository/service calls are deterministic functions supplied in an
  environment record; each use case is a pure function of that environment.
* `new Date()` is modelled by an explicit `now : Nat` parameter.
* The TS `Result` class (`Result.ok` / `Result.fail`, `isSuccess`) is the
  inductive `Result`.
-/

set_option maxRecDepth 10000

/-- JavaScript string: a list of UTF-16 code units. -/
abbrev JStr := List Nat

/-- Embed a Lean string literal as a `JStr` (code points; the literals used
here are ASCII, where code points and UTF-16 units agree). -/
def strCodes (s : String) : JStr := s.data.map Char.toNat

/-- `String.prototype.toLowerCase` on one ASCII code unit. -/
def lowerCode (c : Nat) : Nat := if 65 ≤ c ∧ c ≤ 90 then c + 32 else c

/-- `String.prototype.toUpperCase` on one ASCII code unit. -/
def upperCode (c : Nat) : Nat := if 97 ≤ c ∧ c ≤ 122 then c - 32 else c

/-- The whitespace class recognised by `String.prototype.trim` (ASCII part
plus NBSP and BOM). -/
def isJsSpace (c : Nat) : Bool :=
  decide (c = 9 ∨ c = 10 ∨ c = 11 ∨ c = 12 ∨ c = 13 ∨ c = 32 ∨ c = 160 ∨ c = 65279)

/-- `s.toLowerCase()`. -/
def jsLower (s : JStr) : JStr := s.map lowerCode

/-- `s.toUpperCase()`. -/
def jsUpper (s : JStr) : JStr := s.map upperCode

/-- `s.trim()`: strip leading and trailing whitespace. -/
def jsTrim (s : JStr) : JStr :=
  ((s.dropWhile isJsSpace).reverse.dropWhile isJsSpace).reverse

/-- `s.toLowerCase().trim()` — the normalisation `Permission.grants` and
`Permission.matches` apply to their inputs. -/
def jsNorm (s : JStr) : JStr := jsTrim (jsLower s)

theorem lowerCode_idem (c : Nat) : lowerCode (lowerCode c) = lowerCode c := by
  unfold lowerCode; split_ifs <;> omega

theorem isJsSpace_lowerCode (c : Nat) : isJsSpace (lowerCode c) = isJsSpace c := by
  unfold lowerCode isJsSpace
  split_ifs with h
  · apply decide_eq_decide.mpr; omega
  · rfl

theorem jsLower_idem (s : JStr) : jsLower (jsLower s) = jsLower s := by
  unfold jsLower
  rw [List.map_map]
  exact List.map_congr_left fun c _ => lowerCode_idem c

theorem dropWhile_head_not {p : Nat → Bool} {l : JStr} {x : Nat}
    (h : (l.dropWhile p).head? = some x) : p x = false := by
  induction l with
  | nil => simp at h
  | cons a t ih =>
    by_cases hp : p a = true
    · rw [List.dropWhile_cons_of_pos hp] at h
      exact ih h
    · rw [List.dropWhile_cons_of_neg hp] at h
      simp at h
      subst h
      cases hb : p a with
      | false => rfl
      | true => exact absurd hb hp

theorem dropWhile_eq_self_of_head {p : Nat → Bool} {l : JStr}
    (h : ∀ x, l.head? = some x → p x = false) : l.dropWhile p = l := by
  cases l with
  | nil => rfl
  | cons a t =>
    rw [List.dropWhile_cons]
    have := h a rfl
    simp [this]

theorem getLast?_dropWhile {p : Nat → Bool} {l : JStr}
    (h : l.dropWhile p ≠ []) : (l.dropWhile p).getLast? = l.getLast? := by
  induction l with
  | nil => simp at h
  | cons a t ih =>
    rw [List.dropWhile_cons]
    rw [List.dropWhile_cons] at h
    split
    · rename_i hp
      rw [hp] at h
      simp only [if_true] at h
      rw [ih h]
      have ht : t ≠ [] := by
        intro he; exact h (by simp [he])
      cases t with
      | nil => exact absurd rfl ht
      | cons b u => exact List.getLast?_cons_cons.symm
    · rfl

theorem jsTrim_head_not {l : JStr} {x : Nat}
    (h : (jsTrim l).head? = some x) : isJsSpace x = false := by
  unfold jsTrim at h
  rw [List.head?_reverse] at h
  by_cases hn : (l.dropWhile isJsSpace).reverse.dropWhile isJsSpace = []
  · rw [hn] at h; simp at h
  · rw [getLast?_dropWhile hn, List.getLast?_reverse] at h
    exact dropWhile_head_not h

theorem jsTrim_getLast_not {l : JStr} {x : Nat}
    (h : (jsTrim l).getLast? = some x) : isJsSpace x = false := by
  unfold jsTrim at h
  rw [List.getLast?_reverse] at h
  exact dropWhile_head_not h

theorem jsTrim_eq_self {l : JStr}
    (h1 : ∀ x, l.head? = some x → isJsSpace x = false)
    (h2 : ∀ x, l.getLast? = some x → isJsSpace x = false) :
    jsTrim l = l := by
  unfold jsTrim
  rw [dropWhile_eq_self_of_head h1]
  have : ∀ x, l.reverse.head? = some x → isJsSpace x = false := by
    intro x hx
    rw [List.head?_reverse] at hx
    exact h2 x hx
  rw [dropWhile_eq_self_of_head this, List.reverse_reverse]

theorem jsTrim_idem (l : JStr) : jsTrim (jsTrim l) = jsTrim l :=
  jsTrim_eq_self (fun _ h => jsTrim_head_not h) (fun _ h => jsTrim_getLast_not h)

theorem mem_jsTrim {l : JStr} {x : Nat} (h : x ∈ jsTrim l) : x ∈ l := by
  unfold jsTrim at h
  rw [List.mem_reverse] at h
  have h2 := (List.dropWhile_sublist _).subset h
  rw [List.mem_reverse] at h2
  exact (List.dropWhile_sublist _).subset h2

theorem jsLower_jsTrim_jsLower (l : JStr) :
    jsLower (jsTrim (jsLower l)) = jsTrim (jsLower l) := by
  unfold jsLower
  have h : ∀ c ∈ jsTrim (l.map lowerCode), lowerCode c = id c := by
    intro c hc
    have : c ∈ jsLower l := mem_jsTrim hc
    obtain ⟨d, _, rfl⟩ := List.mem_map.mp this
    exact lowerCode_idem d
  rw [List.map_congr_left h, List.map_id]

/-- Normalisation is idempotent: this is why the double normalisation in
`Permission.grants` (which normalises and then calls `matches`, which
normalises again) collapses to a single normalisation. -/
theorem jsNorm_idem (s : JStr) : jsNorm (jsNorm s) = jsNorm s := by
  unfold jsNorm
  rw [jsLower_jsTrim_jsLower, jsTrim_idem]

/-! ## `Result` (lib/result/result.ts) and the error taxonomy -/

/-- The tagged success/failure type every domain operation returns
(`Result.ok` / `Result.fail` in `lib/result/result.ts`). -/
inductive Result (α ε : Type) where
  | ok (value : α) : Result α ε
  | fail (error : ε) : Result α ε
deriving DecidableEq, Repr

/-- `result.isSuccess()`. -/
def Result.isSuccess {α ε : Type} : Result α ε → Bool
  | .ok _ => true
  | .fail _ => false

/-- The error taxonomy of `modules/common/errors`.  Each constructor keeps
the fields the claims reason about; the free-text messages are carried
verbatim.  `UnauthorizedError` additionally keeps its `ErrorContext`
(aggregateType, aggregateId, operation, metadata.reason, metadata.email)
because the login claims are about exactly that content. -/
inductive Err where
  | validation (field : String) (reason : String)
  | notFound (entityType : String) (identifier : JStr)
  | forbidden (operation : String) (entityType : String) (reason : String)
  | conflict (entityType : String) (field : String) (value : JStr) (reason : String)
  | unauthorized (message : String) (aggregateType : String)
      (aggregateId : Option JStr) (operation : String)
      (metaReason : String) (metaEmail : JStr)
  | database (tag : String)
deriving DecidableEq, Repr

/-! ## Identifier value objects -/

/-- `PermissionId` value object: a wrapped UUID string, compared by value. -/
structure PermissionId where
  value : JStr
deriving DecidableEq, Repr

/-- `RoleId` value object. -/
structure RoleId where
  value : JStr
deriving DecidableEq, Repr

/-- `UserId` value object. -/
structure UserId where
  value : JStr
deriving DecidableEq, Repr

/-- One code unit of the class `[0-9a-f]` with the `i` flag,
as used by the UUID-v4 regex. -/
def isHexCode (c : Nat) : Bool :=
  decide ((48 ≤ c ∧ c ≤ 57) ∨ (97 ≤ c ∧ c ≤ 102) ∨ (65 ≤ c ∧ c ≤ 70))

/-- The UUID v4 check shared by `UserId.fromString` / `RoleId.fromString` /
`PermissionId.fromString`:
`/^[0-9a-f]{8}-[0-9a-f]{4}-4[0-9a-f]{3}-[89ab][0-9a-f]{3}-[0-9a-f]{12}$/i`. -/
def isUuidV4 (l : JStr) : Bool :=
  l.length == 36 &&
  (List.range 36).all (fun i =>
    let c := l.getD i 0
    if i = 8 ∨ i = 13 ∨ i = 18 ∨ i = 23 then c == 45
    else if i = 14 then c == 52
    else if i = 19 then (c == 56 || c == 57 || c == 97 || c == 98 || c == 65 || c == 66)
    else isHexCode c)

/-- `RoleId.fromString`: rejects empty/whitespace and non-UUID-v4 strings. -/
def RoleId.fromString (id : JStr) : Result RoleId Err :=
  if jsTrim id = [] then
    .fail (.validation "roleId" "Role ID cannot be empty")
  else if isUuidV4 id then
    .ok ⟨id⟩
  else
    .fail (.validation "roleId" "Role ID must be a valid UUID v4")

/-- `PermissionId.fromString`. -/
def PermissionId.fromString (id : JStr) : Result PermissionId Err :=
  if jsTrim id = [] then
    .fail (.validation "permissionId" "Permission ID cannot be empty")
  else if isUuidV4 id then
    .ok ⟨id⟩
  else
    .fail (.validation "permissionId" "Permission ID must be a valid UUID v4")

/-! ## `Permission` entity (permission.entity.ts) -/

/-- `PermissionProps` as handed to `Permission.reconstitute`. -/
structure PermissionProps where
  id : PermissionId
  resource : JStr
  action : JStr
  description : JStr
  createdAt : Nat
deriving DecidableEq, Repr

/-- The `Permission` entity's private state. -/
structure Permission where
  id : PermissionId
  resource : JStr
  action : JStr
  description : JStr
  createdAt : Nat
deriving DecidableEq, Repr

/-- `Permission.reconstitute` — hydration from persistence, no validation,
fields copied as-is. -/
def Permission.reconstitute (props : PermissionProps) : Permission :=
  ⟨props.id, props.resource, props.action, props.description, props.createdAt⟩

/-- The literal `'*'`. -/
def star : JStr := strCodes "*"

/-- `Permission.matches(resource, action)`: equality against the
lowercased-and-trimmed inputs. -/
def Permission.matches (p : Permission) (resource action : JStr) : Bool :=
  decide (p.resource = jsNorm resource ∧ p.action = jsNorm action)

/-- `Permission.grants(resource, action)`: exact match, then the three flat
wildcard rules, in source order. -/
def Permission.grants (p : Permission) (resource action : JStr) : Bool :=
  let normalizedResource := jsNorm resource
  let normalizedAction := jsNorm action
  if p.matches normalizedResource normalizedAction then true
  else if p.action = star ∧ p.resource = normalizedResource then true
  else if p.resource = star ∧ p.action = normalizedAction then true
  else if p.resource = star ∧ p.action = star then true
  else false

/-- One code unit of `[a-z0-9_-]` with the `i` flag (permission
resource/action character class). -/
def isAlnumUnderHyphen (c : Nat) : Bool :=
  decide ((97 ≤ c ∧ c ≤ 122) ∨ (65 ≤ c ∧ c ≤ 90) ∨ (48 ≤ c ∧ c ≤ 57) ∨ c = 95 ∨ c = 45)

/-- `Permission.validateResource`. -/
def Permission.validateResource (resource : JStr) : Result Unit Err :=
  if jsTrim resource = [] then
    .fail (.validation "resource" "Resource is required")
  else if 50 < (jsTrim resource).length then
    .fail (.validation "resource" "Resource must not exceed 50 characters")
  else if ¬ (jsTrim resource).all isAlnumUnderHyphen then
    .fail (.validation "resource"
      "Resource must contain only alphanumeric characters, underscores, and hyphens")
  else
    .ok ()

/-- `Permission.validateAction`. -/
def Permission.validateAction (action : JStr) : Result Unit Err :=
  if jsTrim action = [] then
    .fail (.validation "action" "Action is required")
  else if 50 < (jsTrim action).length then
    .fail (.validation "action" "Action must not exceed 50 characters")
  else if ¬ (jsTrim action).all isAlnumUnderHyphen then
    .fail (.validation "action"
      "Action must contain only alphanumeric characters, underscores, and hyphens")
  else
    .ok ()

/-- `Permission.validateDescription`. -/
def Permission.validateDescription (description : JStr) : Result Unit Err :=
  if jsTrim description = [] then
    .fail (.validation "description" "Description is required")
  else if 255 < (jsTrim description).length then
    .fail (.validation "description" "Description must not exceed 255 characters")
  else
    .ok ()

/-- `CreatePermissionProps`. -/
structure CreatePermissionProps where
  resource : JStr
  action : JStr
  description : JStr
deriving DecidableEq, Repr

/-- `Permission.create`: validate resource, action, description in order,
then store the lowercased-and-trimmed resource/action and the trimmed
description.  The randomly generated `PermissionId.create()` and `new Date()`
are passed in as `newId` and `now`. -/
def Permission.create (props : CreatePermissionProps) (newId : PermissionId)
    (now : Nat) : Result Permission Err :=
  match Permission.validateResource props.resource with
  | .fail e => .fail e
  | .ok _ =>
    match Permission.validateAction props.action with
    | .fail e => .fail e
    | .ok _ =>
      match Permission.validateDescription props.description with
      | .fail e => .fail e
      | .ok _ =>
        .ok ⟨newId, jsNorm props.resource, jsNorm props.action,
             jsTrim props.description, now⟩

/-! ## Claims C2 and C8: `Permission.grants` -/

/-- Shared characterisation of `Permission.grants` as the disjunction of
its four rules (the double normalisation collapses by `jsNorm_idem`). -/
theorem grants_eq_true_iff (p : Permission) (resource action : JStr) :
    p.grants resource action = true ↔
      ((p.resource = jsNorm resource ∧ p.action = jsNorm action) ∨
       (p.action = star ∧ p.resource = jsNorm resource) ∨
       (p.resource = star ∧ p.action = jsNorm action) ∨
       (p.resource = star ∧ p.action = star)) := by
  unfold Permission.grants Permission.matches
  simp only [jsNorm_idem]
  split_ifs with h1 h2 h3 h4 <;> simp_all

/-- C2: `Permission.grants(resource, action)` is true iff, after lowercasing
and trimming the requested inputs, one of exactly four flat rules holds:
exact match on both fields; the permission's action is `*` and its resource
equals the requested resource; the permission's resource is `*` and its
action equals the requested action; or both fields are `*`.  Each rule is
simple equality — no hierarchical wildcards. -/
theorem grants_four_flat_rules (p : Permission) (resource action : JStr) :
    p.grants resource action = true ↔
      ((p.resource = jsNorm resource ∧ p.action = jsNorm action) ∨
       (p.action = star ∧ p.resource = jsNorm resource) ∨
       (p.resource = star ∧ p.action = jsNorm action) ∨
       (p.resource = star ∧ p.action = star)) :=
  grants_eq_true_iff p resource action

/-- The permission used to refute C8's reflexivity part: reconstituted from
persistence with a non-lowercase `resource`, which `reconstitute`
deliberately does not normalise. -/
def unnormalizedPerm : Permission :=
  Permission.reconstitute
    ⟨⟨strCodes "6f9619ff-8b86-4d01-b42d-00cf4fc964ff"⟩,
     strCodes "Users", strCodes "read", strCodes "Read users", 0⟩

/-- C8 counterexample: `grants` is not reflexive for permissions built via
`Permission.reconstitute`.  For the stored pair `("Users", "read")` the
request `grants("Users", "read")` normalises the input to `"users"`, which
is not equal to the stored `"Users"`, so the exact-match rule fails and no
wildcard rule applies: the call returns `false`, refuting the claim that
every reconstituted permission satisfies `p.grants(p.resource, p.action) =
true`. -/
theorem grants_reconstitute_not_reflexive :
    unnormalizedPerm.grants unnormalizedPerm.resource unnormalizedPerm.action
      = false := by decide

/-- C8 (amended): `Permission.grants` is reflexive for every permission whose
stored resource and action are fixed points of the lowercase-and-trim
normalisation — in particular for every permission produced by
`Permission.create`, which normalises both fields — and every permission
whose resource and action are both `*` grants every (resource, action)
pair.  (Reflexivity does not hold for `Permission.reconstitute` in general,
since it copies fields unnormalised.) -/
theorem grants_reflexive_amended :
    (∀ (props : CreatePermissionProps) (newId : PermissionId) (now : Nat)
        (p : Permission), Permission.create props newId now = Result.ok p →
        p.grants p.resource p.action = true) ∧
    (∀ p : Permission, jsNorm p.resource = p.resource →
        jsNorm p.action = p.action → p.grants p.resource p.action = true) ∧
    (∀ (p : Permission) (resource action : JStr), p.resource = star →
        p.action = star → p.grants resource action = true) := by
  have hfix : ∀ p : Permission, jsNorm p.resource = p.resource →
      jsNorm p.action = p.action → p.grants p.resource p.action = true := by
    intro p hr ha
    rw [grants_eq_true_iff]
    exact Or.inl ⟨hr.symm, ha.symm⟩
  refine ⟨?_, hfix, ?_⟩
  · intro props newId now p hp
    unfold Permission.create at hp
    split at hp
    · exact absurd hp (by simp)
    split at hp
    · exact absurd hp (by simp)
    split at hp
    · exact absurd hp (by simp)
    · simp only [Result.ok.injEq] at hp
      subst hp
      exact hfix _ (jsNorm_idem _) (jsNorm_idem _)
  · intro p resource action hr ha
    rw [grants_eq_true_iff]
    exact Or.inr (Or.inr (Or.inr ⟨hr, ha⟩))

/-- Witness for `grants_reflexive_amended`, discharging one hypothesis of
each conjunct at concrete inputs: a permission actually built by
`Permission.create`, a reconstituted permission with already-normalised
fields, and the full wildcard permission. -/
theorem grants_reflexive_amended_witness :
    (let p := Permission.mk ⟨strCodes "11111111-1111-4111-8111-111111111111"⟩
        (strCodes "users") (strCodes "read") (strCodes "Read users") 7
     p.grants p.resource p.action = true) ∧
    ((Permission.reconstitute ⟨⟨strCodes "x"⟩, strCodes "roles",
        strCodes "delete", strCodes "d", 0⟩).grants (strCodes "roles")
        (strCodes "delete") = true) ∧
    ((Permission.mk ⟨strCodes "x"⟩ star star (strCodes "all") 0).grants
        (strCodes "anything") (strCodes "whatever") = true) :=
  ⟨grants_reflexive_amended.1
      ⟨strCodes "users", strCodes "read", strCodes "Read users"⟩
      ⟨strCodes "11111111-1111-4111-8111-111111111111"⟩ 7 _ (by decide),
   grants_reflexive_amended.2.1 _ (by decide) (by decide),
   grants_reflexive_amended.2.2 _ (strCodes "anything") (strCodes "whatever")
      rfl rfl⟩

/-! ## `Email` / `Password` value objects (email.vo.ts, password.vo.ts) -/

/-- `Email` value object: normalised (trimmed, lowercased) address. -/
structure Email where
  value : JStr
deriving DecidableEq, Repr

/-- `Password` value object: plain or hashed string. -/
structure Password where
  value : JStr
deriving DecidableEq, Repr

/-- `Password.fromString`: hash-only reconstruction, no validation. -/
def Password.fromString (value : JStr) : Password := ⟨value⟩

/-- The email-format regex `/^[^\s@]+@[^\s@]+\.[^\s@]+$/`: the string
decomposes as `A ++ "@" ++ B ++ "." ++ C` with `A`, `B`, `C` non-empty and
free of whitespace and `@`.  Equivalently: no whitespace anywhere, exactly
one `@`, at least one character before it, and some `.` at least two
positions after the `@` and at least two positions before the end. -/
def jsEmailFormat (l : JStr) : Bool :=
  l.count 64 == 1 &&
  l.all (fun c => !isJsSpace c) &&
  (let i := l.indexOf 64
   decide (1 ≤ i) &&
   (List.range l.length).any (fun j =>
     decide (i + 2 ≤ j) && decide (j + 2 ≤ l.length) && l.getD j 0 == 46))

/-- `Email.create`: trim + lowercase, then length, format and
local-part/domain bounds. -/
def Email.create (email : JStr) : Result Email Err :=
  if jsTrim email = [] then
    .fail (.validation "email" "Email cannot be empty")
  else
    let normalized := jsLower (jsTrim email)
    if 255 < normalized.length then
      .fail (.validation "email" "Email cannot exceed 255 characters")
    else if ¬ jsEmailFormat normalized then
      .fail (.validation "email" "Invalid email format")
    else
      let localPart := normalized.takeWhile (fun c => !(c == 64))
      let domain := (normalized.dropWhile (fun c => !(c == 64))).drop 1
      if 64 < localPart.length then
        .fail (.validation "email" "Email local part cannot exceed 64 characters")
      else if 255 < domain.length then
        .fail (.validation "email" "Email domain cannot exceed 255 characters")
      else
        .ok ⟨normalized⟩

/-! ## `User` entity (user.entity.ts) -/

/-- The `User` entity's private state (also the shape of `UserProps`). -/
structure User where
  id : UserId
  email : Email
  password : Password
  firstName : JStr
  lastName : JStr
  isActive : Bool
  roleId : RoleId
  createdAt : Nat
  updatedAt : Nat
deriving DecidableEq, Repr

/-- `User.reconstitute`: hydration from persistence, no validation. -/
def User.reconstitute (props : User) : User := props

/-- One code unit of `[a-zA-Z\s'-]` (the first/last-name character class;
`\s` is modelled by the same whitespace class as `trim`). -/
def isNameCode (c : Nat) : Bool :=
  ((97 ≤ c && c ≤ 122) || (65 ≤ c && c ≤ 90)) || isJsSpace c || c == 39 || c == 45

/-- `User.validateName`. -/
def User.validateName (name : JStr) (fieldName : String) : Result Unit Err :=
  if jsTrim name = [] then
    .fail (.validation fieldName (fieldName ++ " is required"))
  else if 100 < (jsTrim name).length then
    .fail (.validation fieldName (fieldName ++ " must not exceed 100 characters"))
  else if ¬ (jsTrim name).all isNameCode then
    .fail (.validation fieldName
      (fieldName ++ " must contain only letters, spaces, hyphens, and apostrophes"))
  else
    .ok ()

/-- `User.changeEmail`: rejects a no-op change, otherwise swaps the email
and bumps `updatedAt`.  The pure embedding returns the method's
`Result<void>` together with the post-state of the entity. -/
def User.changeEmail (u : User) (newEmail : Email) (now : Nat) :
    Result Unit Err × User :=
  if u.email = newEmail then
    (.fail (.validation "email" "New email is the same as current email"), u)
  else
    (.ok (), { u with email := newEmail, updatedAt := now })

/-- `User.changePassword`. -/
def User.changePassword (u : User) (newPassword : Password) (now : Nat) :
    Result Unit Err × User :=
  if u.password = newPassword then
    (.fail (.validation "password" "New password is the same as current password"), u)
  else
    (.ok (), { u with password := newPassword, updatedAt := now })

/-- `User.changeFirstName`. -/
def User.changeFirstName (u : User) (newFirstName : JStr) (now : Nat) :
    Result Unit Err × User :=
  match User.validateName newFirstName "firstName" with
  | .fail e => (.fail e, u)
  | .ok _ => (.ok (), { u with firstName := jsTrim newFirstName, updatedAt := now })

/-- `User.changeLastName`. -/
def User.changeLastName (u : User) (newLastName : JStr) (now : Nat) :
    Result Unit Err × User :=
  match User.validateName newLastName "lastName" with
  | .fail e => (.fail e, u)
  | .ok _ => (.ok (), { u with lastName := jsTrim newLastName, updatedAt := now })

/-- `User.activate`. -/
def User.activate (u : User) (now : Nat) : Result Unit Err × User :=
  if u.isActive then
    (.fail (.validation "isActive" "User is already active"), u)
  else
    (.ok (), { u with isActive := true, updatedAt := now })

/-- `User.deactivate`. -/
def User.deactivate (u : User) (now : Nat) : Result Unit Err × User :=
  if ¬ u.isActive then
    (.fail (.validation "isActive" "User is already inactive"), u)
  else
    (.ok (), { u with isActive := false, updatedAt := now })

/-- `User.changeRole`. -/
def User.changeRole (u : User) (newRoleId : RoleId) (now : Nat) :
    Result Unit Err × User :=
  if u.roleId = newRoleId then
    (.fail (.validation "roleId" "New role is the same as current role"), u)
  else
    (.ok (), { u with roleId := newRoleId, updatedAt := now })

/-- `User.canAuthenticate`. -/
def User.canAuthenticate (u : User) : Bool := u.isActive

/-! ## Claims C6 and C10: `User` mutators -/

/-- C6: `changeEmail`, `changePassword` and `changeRole` return a
field-tagged `ValidationError` whenever the new value equals the current
one, and `deactivate` returns a `ValidationError` when the user is already
inactive; in each failure case the user's entire state, including
`updatedAt`, is unchanged. -/
theorem user_noop_mutations_rejected :
    (∀ (u : User) (e : Email) (now : Nat), u.email = e →
        u.changeEmail e now =
          (.fail (.validation "email" "New email is the same as current email"), u)) ∧
    (∀ (u : User) (pw : Password) (now : Nat), u.password = pw →
        u.changePassword pw now =
          (.fail (.validation "password" "New password is the same as current password"), u)) ∧
    (∀ (u : User) (r : RoleId) (now : Nat), u.roleId = r →
        u.changeRole r now =
          (.fail (.validation "roleId" "New role is the same as current role"), u)) ∧
    (∀ (u : User) (now : Nat), u.isActive = false →
        u.deactivate now =
          (.fail (.validation "isActive" "User is already inactive"), u)) := by
  refine ⟨?_, ?_, ?_, ?_⟩
  · intro u x now h
    simp [User.changeEmail, h]
  · intro u x now h
    simp [User.changePassword, h]
  · intro u x now h
    simp [User.changeRole, h]
  · intro u now h
    simp [User.deactivate, h]

/-- A concrete user for witnesses. -/
def sampleUser : User :=
  ⟨⟨strCodes "6f9619ff-8b86-4d01-b42d-00cf4fc964ff"⟩,
   ⟨strCodes "user@example.com"⟩,
   ⟨strCodes "$2b$10$hashedhashedhashedhashed"⟩,
   strCodes "John", strCodes "Doe", true,
   ⟨strCodes "11111111-1111-4111-8111-111111111111"⟩, 3, 3⟩

/-- Witness for `user_noop_mutations_rejected` at `sampleUser`:
re-submitting the current email, password and role is rejected with the
tagged errors, and deactivating an already-inactive user is rejected,
leaving the state untouched. -/
theorem user_noop_mutations_rejected_witness :
    sampleUser.changeEmail sampleUser.email 9 =
      (.fail (.validation "email" "New email is the same as current email"),
        sampleUser) ∧
    sampleUser.changePassword sampleUser.password 9 =
      (.fail (.validation "password" "New password is the same as current password"),
        sampleUser) ∧
    sampleUser.changeRole sampleUser.roleId 9 =
      (.fail (.validation "roleId" "New role is the same as current role"),
        sampleUser) ∧
    ({ sampleUser with isActive := false } : User).deactivate 9 =
      (.fail (.validation "isActive" "User is already inactive"),
        { sampleUser with isActive := false }) :=
  ⟨user_noop_mutations_rejected.1 sampleUser sampleUser.email 9 rfl,
   user_noop_mutations_rejected.2.1 sampleUser sampleUser.password 9 rfl,
   user_noop_mutations_rejected.2.2.1 sampleUser sampleUser.roleId 9 rfl,
   user_noop_mutations_rejected.2.2.2 { sampleUser with isActive := false } 9 rfl⟩

/-- One invocation of a `User` mutator method, for stating the frame
property uniformly. -/
inductive UserMut where
  | chEmail (e : Email)
  | chPassword (p : Password)
  | chFirstName (s : JStr)
  | chLastName (s : JStr)
  | chRole (r : RoleId)
  | activate
  | deactivate
deriving DecidableEq, Repr

/-- Dispatch one mutator invocation. -/
def applyUserMut (u : User) (m : UserMut) (now : Nat) : Result Unit Err × User :=
  match m with
  | .chEmail e => u.changeEmail e now
  | .chPassword p => u.changePassword p now
  | .chFirstName s => u.changeFirstName s now
  | .chLastName s => u.changeLastName s now
  | .chRole r => u.changeRole r now
  | .activate => u.activate now
  | .deactivate => u.deactivate now

/-- The state each mutator is supposed to produce on success: exactly its
target field replaced, plus `updatedAt := now`; everything else copied. -/
def userMutTarget (u : User) (m : UserMut) (now : Nat) : User :=
  match m with
  | .chEmail e => { u with email := e, updatedAt := now }
  | .chPassword p => { u with password := p, updatedAt := now }
  | .chFirstName s => { u with firstName := jsTrim s, updatedAt := now }
  | .chLastName s => { u with lastName := jsTrim s, updatedAt := now }
  | .chRole r => { u with roleId := r, updatedAt := now }
  | .activate => { u with isActive := true, updatedAt := now }
  | .deactivate => { u with isActive := false, updatedAt := now }

/-- C10 (frame property): whenever a `User` mutator succeeds, the post-state
is the pre-state with only the targeted field and `updatedAt` replaced; in
particular `id` and `createdAt` are never modified and every untargeted
field keeps its previous value. -/
theorem user_mutators_frame (u : User) (m : UserMut) (now : Nat)
    (res : Unit) (u' : User)
    (h : applyUserMut u m now = (Result.ok res, u')) :
    u' = userMutTarget u m now ∧ u'.id = u.id ∧ u'.createdAt = u.createdAt := by
  have hu : u' = userMutTarget u m now := by
    cases m <;>
      simp only [applyUserMut, userMutTarget, User.changeEmail,
        User.changePassword, User.changeFirstName, User.changeLastName,
        User.changeRole, User.activate, User.deactivate] at h ⊢ <;>
      split at h <;> simp_all
  refine ⟨hu, ?_, ?_⟩ <;> rw [hu] <;> cases m <;> rfl

/-- Witness for `user_mutators_frame`: deactivating `sampleUser` at time 9
succeeds and yields exactly `sampleUser` with `isActive := false` and
`updatedAt := 9`. -/
theorem user_mutators_frame_witness :
    ({ sampleUser with isActive := false, updatedAt := 9 } : User)
        = userMutTarget sampleUser .deactivate 9 ∧
    ({ sampleUser with isActive := false, updatedAt := 9 } : User).id
        = sampleUser.id ∧
    ({ sampleUser with isActive := false, updatedAt := 9 } : User).createdAt
        = sampleUser.createdAt :=
  user_mutators_frame sampleUser .deactivate 9 () _ (by decide)

/-! ## `Role` entity (role.entity.ts)

The entity file in the dump predates the `isSystem` flag; the current
entity (constructed by the unit tests via `Role.reconstitute({... isSystem
...})`, read by `role.isSystem` in the use cases, and described in the spec)
carries it, so the state below includes it.  `replacePermissions` is not in
the dumped entity either and is modelled from the spec. -/

/-- The `Role` entity's private state (also the shape of `RoleProps`). -/
structure Role where
  id : RoleId
  name : JStr
  description : JStr
  isSystem : Bool
  permissionIds : List PermissionId
  createdAt : Nat
  updatedAt : Nat
deriving DecidableEq, Repr

/-- `Role.reconstitute`: hydration from persistence, no validation (the
permission-id array is copied; aliasing is modelled separately below). -/
def Role.reconstitute (props : Role) : Role := props

/-- One code unit of `[A-Z0-9_]` (role-name character class). -/
def isUpperAlnumUnderscore (c : Nat) : Bool :=
  decide ((65 ≤ c ∧ c ≤ 90) ∨ (48 ≤ c ∧ c ≤ 57) ∨ c = 95)

/-- `Role.validateName`: required, ≤ 50 chars, and
`/^[A-Z0-9_]+$/.test(trimmed.toUpperCase())`. -/
def Role.validateName (name : JStr) : Result Unit Err :=
  if jsTrim name = [] then
    .fail (.validation "name" "Role name is required")
  else if 50 < (jsTrim name).length then
    .fail (.validation "name" "Role name must not exceed 50 characters")
  else if ¬ (jsUpper (jsTrim name)).all isUpperAlnumUnderscore then
    .fail (.validation "name"
      "Role name must contain only uppercase letters, numbers, and underscores")
  else
    .ok ()

/-- `Role.validateDescription`. -/
def Role.validateDescription (description : JStr) : Result Unit Err :=
  if jsTrim description = [] then
    .fail (.validation "description" "Role description is required")
  else if 255 < (jsTrim description).length then
    .fail (.validation "description" "Role description must not exceed 255 characters")
  else
    .ok ()

/-- `Role.changeName`: validate, then store `newName.toUpperCase().trim()`
and bump `updatedAt`. -/
def Role.changeName (r : Role) (newName : JStr) (now : Nat) :
    Result Unit Err × Role :=
  match Role.validateName newName with
  | .fail e => (.fail e, r)
  | .ok _ => (.ok (), { r with name := jsTrim (jsUpper newName), updatedAt := now })

/-- `Role.changeDescription`. -/
def Role.changeDescription (r : Role) (newDescription : JStr) (now : Nat) :
    Result Unit Err × Role :=
  match Role.validateDescription newDescription with
  | .fail e => (.fail e, r)
  | .ok _ => (.ok (), { r with description := jsTrim newDescription, updatedAt := now })

/-- `Role.getPermissionIds` (the defensive copy is value-identical). -/
def Role.getPermissionIds (r : Role) : List PermissionId := r.permissionIds

/-- Order-insensitive equality of two permission-id lists, used to detect
whether a wholesale replacement actually changed the set. -/
def sameIdSet (a b : List PermissionId) : Bool :=
  a.all (fun x => b.contains x) && b.all (fun x => a.contains x)

/-- Modelled from the spec: `Role.replacePermissions` is absent from the
dumped entity file (only its caller `UpdateRoleUseCase` and the spec
describe it).  Per the spec it "must perform duplicate-free replacement,
bumping updatedAt on any change": a supplied list with duplicate ids is
rejected with the same field-tagged error the entity's other
duplicate-permission validations use, otherwise the permission-id set is
replaced wholesale and `updatedAt` is bumped iff the set changed. -/
def Role.replacePermissions (r : Role) (newIds : List PermissionId) (now : Nat) :
    Result Unit Err × Role :=
  if ¬ (newIds.map PermissionId.value).Nodup then
    (.fail (.validation "permissionIds" "Role cannot have duplicate permissions"), r)
  else
    (.ok (),
     { r with permissionIds := newIds,
              updatedAt := if sameIdSet r.permissionIds newIds then r.updatedAt else now })

/-! ## Claim C9: `Role.reconstitute` round-trip and defensive copy

JS arrays are reference values, so the defensive-copy part of the claim is
about aliasing.  A minimal heap of permission-id arrays makes it statable:
`RoleH` stores a reference into the heap, `reconstituteH` performs the
`[...props.permissionIds]` copy by allocating a fresh array. -/

/-- A heap of JS arrays of permission ids; a reference is an index. -/
structure ArrStore where
  arrays : List (List PermissionId)
deriving Repr

/-- Dereference. -/
def ArrStore.read (st : ArrStore) (r : Nat) : List PermissionId :=
  st.arrays.getD r []

/-- Allocate a fresh array (returns the new store and the reference). -/
def ArrStore.alloc (st : ArrStore) (content : List PermissionId) :
    ArrStore × Nat :=
  (⟨st.arrays ++ [content]⟩, st.arrays.length)

/-- In-place mutation of the array behind a reference. -/
def ArrStore.write (st : ArrStore) (r : Nat) (content : List PermissionId) :
    ArrStore :=
  ⟨st.arrays.set r content⟩

/-- `RoleProps` at the heap level: `permissionIds` is an array reference. -/
structure RolePropsH where
  id : RoleId
  name : JStr
  description : JStr
  isSystem : Bool
  permissionIds : Nat
  createdAt : Nat
  updatedAt : Nat
deriving DecidableEq, Repr

/-- The `Role` entity at the heap level. -/
structure RoleH where
  id : RoleId
  name : JStr
  description : JStr
  isSystem : Bool
  permRef : Nat
  createdAt : Nat
  updatedAt : Nat
deriving DecidableEq, Repr

/-- `Role.reconstitute` at the heap level: every scalar field copied as-is
and the permission-id array defensively copied (`[...props.permissionIds]`)
into a fresh allocation. -/
def Role.reconstituteH (st : ArrStore) (props : RolePropsH) : ArrStore × RoleH :=
  let res := st.alloc (st.read props.permissionIds)
  (res.1, ⟨props.id, props.name, props.description, props.isSystem,
           res.2, props.createdAt, props.updatedAt⟩)

/-- C9: `Role.reconstitute(props)` followed by reading back all getters
yields exactly `props` (deep equality: the permission-id array read through
the entity has the same contents as the input array), and the permission-id
list is defensively copied — overwriting the input array after
reconstitution leaves the entity's permission-id set untouched. -/
theorem role_reconstitute_roundtrip (st : ArrStore) (props : RolePropsH)
    (hv : props.permissionIds < st.arrays.length) :
    (Role.reconstituteH st props).2.id = props.id ∧
    (Role.reconstituteH st props).2.name = props.name ∧
    (Role.reconstituteH st props).2.description = props.description ∧
    (Role.reconstituteH st props).2.isSystem = props.isSystem ∧
    (Role.reconstituteH st props).2.createdAt = props.createdAt ∧
    (Role.reconstituteH st props).2.updatedAt = props.updatedAt ∧
    (Role.reconstituteH st props).1.read (Role.reconstituteH st props).2.permRef
      = st.read props.permissionIds ∧
    (∀ newContent : List PermissionId,
      (((Role.reconstituteH st props).1.write props.permissionIds newContent).read
          (Role.reconstituteH st props).2.permRef)
        = st.read props.permissionIds) := by
  refine ⟨rfl, rfl, rfl, rfl, rfl, rfl, ?_, ?_⟩
  · show (⟨st.arrays ++ [st.read props.permissionIds]⟩ : ArrStore).read
        st.arrays.length = st.read props.permissionIds
    unfold ArrStore.read
    simp [List.getD]
  · intro newContent
    show (⟨(st.arrays ++ [st.read props.permissionIds]).set props.permissionIds
        newContent⟩ : ArrStore).read st.arrays.length = st.read props.permissionIds
    unfold ArrStore.read
    have hne : props.permissionIds ≠ st.arrays.length := Nat.ne_of_lt hv
    simp [List.getD, List.getElem?_set_ne hne]

/-- Witness for `role_reconstitute_roundtrip`: a one-array heap, with the
input array overwritten afterwards. -/
theorem role_reconstitute_roundtrip_witness :
    (let st : ArrStore := ⟨[[⟨strCodes "a"⟩, ⟨strCodes "b"⟩]]⟩
     let props : RolePropsH :=
       ⟨⟨strCodes "r1"⟩, strCodes "SUPPORT", strCodes "Support role",
        false, 0, 1, 2⟩
     (Role.reconstituteH st props).2.name = props.name ∧
     (((Role.reconstituteH st props).1.write 0 []).read
        (Role.reconstituteH st props).2.permRef)
       = st.read 0) := by
  refine ⟨(role_reconstitute_roundtrip _ _ (by decide)).2.1, ?_⟩
  exact (role_reconstitute_roundtrip _ _ (by decide)).2.2.2.2.2.2.2 []

/-! ## `AuthorizationService` (authorization.service.ts) -/

/-- The repository ports `AuthorizationService` consumes, as deterministic
functions (each is awaited exactly once per step). -/
structure AuthEnv where
  userFindById : UserId → Result (Option User) Err
  roleFindById : RoleId → Result (Option Role) Err
  permissionFindByIds : List PermissionId → Result (List Permission) Err

/-- `AuthorizationService.userHasPermission(userId, resource, action)`:
fetch user (NotFound if absent, propagate errors), inactive → ok false,
fetch role (NotFound if absent), empty permission-id list → ok false,
bulk-fetch permissions, then ok iff any fetched permission grants. -/
def AuthorizationService.userHasPermission (env : AuthEnv) (userId : UserId)
    (resource action : JStr) : Result Bool Err :=
  match env.userFindById userId with
  | .fail e => .fail e
  | .ok none => .fail (.notFound "User" userId.value)
  | .ok (some user) =>
    if ¬ user.isActive then .ok false
    else
      match env.roleFindById user.roleId with
      | .fail e => .fail e
      | .ok none => .fail (.notFound "Role" user.roleId.value)
      | .ok (some role) =>
        let permissionIds := role.getPermissionIds
        if permissionIds.length = 0 then .ok false
        else
          match env.permissionFindByIds permissionIds with
          | .fail e => .fail e
          | .ok permissions =>
            .ok (permissions.any (fun permission => permission.grants resource action))

/-- C1: the complete branch behaviour of
`AuthorizationService.userHasPermission`: repository failures are returned
unchanged at every step; a missing user or role is a `NotFoundError`; an
inactive user and an empty permission-id list give success `false`; and
otherwise the result is success with `true` iff at least one permission
returned by the bulk `findByIds` lookup grants the pair — the bulk result
is used as-is, so ids missing from it are silently ignored. -/
theorem userHasPermission_branches (env : AuthEnv) (userId : UserId)
    (resource action : JStr) :
    (∀ e, env.userFindById userId = .fail e →
      AuthorizationService.userHasPermission env userId resource action = .fail e) ∧
    (env.userFindById userId = .ok none →
      AuthorizationService.userHasPermission env userId resource action
        = .fail (.notFound "User" userId.value)) ∧
    (∀ u, env.userFindById userId = .ok (some u) → u.isActive = false →
      AuthorizationService.userHasPermission env userId resource action = .ok false) ∧
    (∀ u e, env.userFindById userId = .ok (some u) → u.isActive = true →
      env.roleFindById u.roleId = .fail e →
      AuthorizationService.userHasPermission env userId resource action = .fail e) ∧
    (∀ u, env.userFindById userId = .ok (some u) → u.isActive = true →
      env.roleFindById u.roleId = .ok none →
      AuthorizationService.userHasPermission env userId resource action
        = .fail (.notFound "Role" u.roleId.value)) ∧
    (∀ u role, env.userFindById userId = .ok (some u) → u.isActive = true →
      env.roleFindById u.roleId = .ok (some role) → role.permissionIds = [] →
      AuthorizationService.userHasPermission env userId resource action = .ok false) ∧
    (∀ u role e, env.userFindById userId = .ok (some u) → u.isActive = true →
      env.roleFindById u.roleId = .ok (some role) → role.permissionIds ≠ [] →
      env.permissionFindByIds role.permissionIds = .fail e →
      AuthorizationService.userHasPermission env userId resource action = .fail e) ∧
    (∀ u role permissions, env.userFindById userId = .ok (some u) →
      u.isActive = true →
      env.roleFindById u.roleId = .ok (some role) → role.permissionIds ≠ [] →
      env.permissionFindByIds role.permissionIds = .ok permissions →
      AuthorizationService.userHasPermission env userId resource action
        = .ok (permissions.any (fun permission => permission.grants resource action))) := by
  unfold AuthorizationService.userHasPermission Role.getPermissionIds
  refine ⟨?_, ?_, ?_, ?_, ?_, ?_, ?_, ?_⟩
  · intro e h; rw [h]
  · intro h; rw [h]
  · intro u h hi; rw [h]; simp [hi]
  · intro u e h hi hr; rw [h]; simp [hi, hr]
  · intro u h hi hr; rw [h]; simp [hi, hr]
  · intro u role h hi hr hp; rw [h]; simp [hi, hr, hp]
  · intro u role e h hi hr hp hf
    rw [h]
    simp only [hi, hr, List.length_eq_zero, hp, if_neg hp, hf]
    simp
  · intro u role permissions h hi hr hp hf
    rw [h]
    simp only [hi, hr, List.length_eq_zero, hp, if_neg hp, hf]
    simp

/-- A permission that grants `users:read`, a role holding it, and the
repositories for the witness. -/
def samplePermission : Permission :=
  ⟨⟨strCodes "22222222-2222-4222-9222-222222222222"⟩,
   strCodes "users", strCodes "read", strCodes "Read users", 0⟩

/-- A role whose only permission is `samplePermission`. -/
def sampleRole : Role :=
  ⟨⟨strCodes "11111111-1111-4111-8111-111111111111"⟩,
   strCodes "USER", strCodes "Default role", false,
   [samplePermission.id], 1, 2⟩

/-- Repositories for the witness: the user, their role and the role's
permission all exist. -/
def sampleAuthEnv : AuthEnv :=
  ⟨fun _ => .ok (some sampleUser),
   fun _ => .ok (some sampleRole),
   fun _ => .ok [samplePermission]⟩

/-- Witness for `userHasPermission_branches`: on the all-successes
environment the full chain runs and the check for `users:read` comes back
`ok true`. -/
theorem userHasPermission_branches_witness :
    AuthorizationService.userHasPermission sampleAuthEnv sampleUser.id
      (strCodes "users") (strCodes "read") = .ok true := by
  have h := (userHasPermission_branches sampleAuthEnv sampleUser.id
      (strCodes "users") (strCodes "read")).2.2.2.2.2.2.2
      sampleUser sampleRole [samplePermission] rfl rfl rfl (by decide) rfl
  exact h.trans (by decide)

/-! ## `LoginUserUseCase` (login-user.use-case.ts) -/

/-- `UserResponseDto` — the client-safe user shape (no password). -/
structure UserResponseDto where
  id : JStr
  email : JStr
  firstName : JStr
  lastName : JStr
  fullName : JStr
  isActive : Bool
  roleId : JStr
  createdAt : Nat
  updatedAt : Nat
deriving DecidableEq, Repr

/-- `UserMapper.toDto`. -/
def UserMapper.toDto (user : User) : UserResponseDto :=
  ⟨user.id.value, user.email.value, user.firstName, user.lastName,
   user.firstName ++ strCodes " " ++ user.lastName,
   user.isActive, user.roleId.value, user.createdAt, user.updatedAt⟩

/-- `LoginResponseDto`. -/
structure LoginResponseDto where
  accessToken : JStr
  user : UserResponseDto
deriving DecidableEq, Repr

/-- The collaborators `LoginUserUseCase` consumes: the user repository's
`findByEmail`, the timing-safe `passwordHashService.compare(plain, hash)`
and `jwtService.sign({ userId })`. -/
structure LoginEnv where
  findByEmail : Email → Result (Option User) Err
  compare : JStr → JStr → Bool
  sign : JStr → JStr

/-- `LoginUserInput`. -/
structure LoginUserInput where
  email : JStr
  password : JStr
deriving DecidableEq, Repr

/-- `LoginUserUseCase.execute`: validate email, find by email, reject a
missing user / inactive account / password mismatch each with an
`UnauthorizedError` whose message is `'Invalid credentials'` (and whose
context metadata records the actual cause), otherwise sign a token of the
user id and return it with the public DTO. -/
def LoginUserUseCase.execute (env : LoginEnv) (input : LoginUserInput) :
    Result LoginResponseDto Err :=
  match Email.create input.email with
  | .fail e => .fail e
  | .ok email =>
    match env.findByEmail email with
    | .fail e => .fail e
    | .ok none =>
      .fail (.unauthorized "Invalid credentials" "User" none "login"
        "user_not_found" input.email)
    | .ok (some user) =>
      if ¬ user.canAuthenticate then
        .fail (.unauthorized "Invalid credentials" "User" (some user.id.value)
          "login" "account_inactive" input.email)
      else if ¬ env.compare input.password user.password.value then
        .fail (.unauthorized "Invalid credentials" "User" (some user.id.value)
          "login" "invalid_password" input.email)
      else
        .ok ⟨env.sign user.id.value, UserMapper.toDto user⟩

/-! ## Claim C4: login failure branches -/

/-- Login input shared by the three failure environments below. -/
def loginInputSample : LoginUserInput :=
  ⟨strCodes "user@example.com", strCodes "Password1!"⟩

/-- Environment in which no user exists for the email. -/
def loginEnvNoUser : LoginEnv :=
  ⟨fun _ => .ok none, fun _ _ => true, fun v => v⟩

/-- Environment in which the user exists but is inactive. -/
def loginEnvInactive : LoginEnv :=
  ⟨fun _ => .ok (some { sampleUser with isActive := false }),
   fun _ _ => true, fun v => v⟩

/-- Environment in which the user exists, is active, and the password
comparison fails. -/
def loginEnvWrongPassword : LoginEnv :=
  ⟨fun _ => .ok (some sampleUser), fun _ _ => false, fun v => v⟩

/-- C4 counterexample: the three login failure branches do **not** return
the same error value, so the caller of `execute` can tell the causes apart.
All three errors are `UnauthorizedError` with the identical message
`'Invalid credentials'`, but their contexts differ: `metadata.reason` is
`'user_not_found'` / `'account_inactive'` / `'invalid_password'`, and
`aggregateId` is absent in the first and present in the other two.  The
same input is sent to three repositories realising the three causes and the
three returned failures are pairwise distinct. -/
theorem login_failures_distinguishable :
    LoginUserUseCase.execute loginEnvNoUser loginInputSample
      = .fail (.unauthorized "Invalid credentials" "User" none "login"
          "user_not_found" (strCodes "user@example.com")) ∧
    LoginUserUseCase.execute loginEnvInactive loginInputSample
      = .fail (.unauthorized "Invalid credentials" "User"
          (some sampleUser.id.value) "login" "account_inactive"
          (strCodes "user@example.com")) ∧
    LoginUserUseCase.execute loginEnvWrongPassword loginInputSample
      = .fail (.unauthorized "Invalid credentials" "User"
          (some sampleUser.id.value) "login" "invalid_password"
          (strCodes "user@example.com")) ∧
    LoginUserUseCase.execute loginEnvNoUser loginInputSample
      ≠ LoginUserUseCase.execute loginEnvInactive loginInputSample ∧
    LoginUserUseCase.execute loginEnvInactive loginInputSample
      ≠ LoginUserUseCase.execute loginEnvWrongPassword loginInputSample ∧
    LoginUserUseCase.execute loginEnvNoUser loginInputSample
      ≠ LoginUserUseCase.execute loginEnvWrongPassword loginInputSample := by
  decide

/-- C4 (amended): each of the three failure branches — user not found,
account inactive, password mismatch — returns an `UnauthorizedError` with
the identical generic message `'Invalid credentials'` (same error class,
aggregate type and operation), so the branches are indistinguishable at the
message level; the error's internal context however records the actual
cause (`metadata.reason`, and `aggregateId` present only when a user was
found), so the full error objects returned to the caller are
distinguishable. -/
theorem login_branches_uniform_message (env : LoginEnv) (input : LoginUserInput) :
    (∀ email, Email.create input.email = .ok email →
      env.findByEmail email = .ok none →
      LoginUserUseCase.execute env input
        = .fail (.unauthorized "Invalid credentials" "User" none "login"
            "user_not_found" input.email)) ∧
    (∀ email user, Email.create input.email = .ok email →
      env.findByEmail email = .ok (some user) → user.isActive = false →
      LoginUserUseCase.execute env input
        = .fail (.unauthorized "Invalid credentials" "User"
            (some user.id.value) "login" "account_inactive" input.email)) ∧
    (∀ email user, Email.create input.email = .ok email →
      env.findByEmail email = .ok (some user) → user.isActive = true →
      env.compare input.password user.password.value = false →
      LoginUserUseCase.execute env input
        = .fail (.unauthorized "Invalid credentials" "User"
            (some user.id.value) "login" "invalid_password" input.email)) := by
  unfold LoginUserUseCase.execute User.canAuthenticate
  refine ⟨?_, ?_, ?_⟩
  · intro email he hf; simp [he, hf]
  · intro email user he hf hi; simp [he, hf, hi]
  · intro email user he hf hi hc; simp [he, hf, hi, hc]

/-- Witness for `login_branches_uniform_message`: the user-not-found branch
at the concrete no-user environment. -/
theorem login_branches_uniform_message_witness :
    LoginUserUseCase.execute loginEnvNoUser loginInputSample
      = .fail (.unauthorized "Invalid credentials" "User" none "login"
          "user_not_found" (strCodes "user@example.com")) :=
  (login_branches_uniform_message loginEnvNoUser loginInputSample).1
    ⟨strCodes "user@example.com"⟩ (by decide) rfl

/-! ## `DeleteRoleUseCase` / `UpdateRoleUseCase` (delete-role.use-case.ts) -/

/-- Collaborators of `DeleteRoleUseCase`. -/
structure DeleteRoleEnv where
  roleFindById : RoleId → Result (Option Role) Err
  roleDelete : RoleId → Result Bool Err

/-- Result of one `DeleteRoleUseCase.execute` run plus whether
`roleRepository.delete` was invoked. -/
structure DeleteRoleOutcome where
  result : Result Unit Err
  deleteCalled : Bool
deriving Repr

/-- `DeleteRoleUseCase.execute`: parse id, load role, `NotFound` when
absent, hard `Forbidden` guard on `isSystem`, then delete (`NotFound` when
the repository reports no row deleted). -/
def DeleteRoleUseCase.execute (env : DeleteRoleEnv) (roleId : JStr) :
    DeleteRoleOutcome :=
  match RoleId.fromString roleId with
  | .fail e => ⟨.fail e, false⟩
  | .ok rid =>
    match env.roleFindById rid with
    | .fail e => ⟨.fail e, false⟩
    | .ok none => ⟨.fail (.notFound "Role" roleId), false⟩
    | .ok (some role) =>
      if role.isSystem then
        ⟨.fail (.forbidden "delete" "Role" "System roles cannot be deleted"), false⟩
      else
        match env.roleDelete rid with
        | .fail e => ⟨.fail e, true⟩
        | .ok false => ⟨.fail (.notFound "Role" roleId), true⟩
        | .ok true => ⟨.ok (), true⟩

/-- Collaborators of `UpdateRoleUseCase`. -/
structure UpdateRoleEnv where
  roleFindById : RoleId → Result (Option Role) Err
  existsByName : JStr → Result Bool Err
  permissionFindByIds : List PermissionId → Result (List Permission) Err
  roleUpdate : Role → Result Unit Err

/-- `UpdateRoleInput` (all fields optional; `none` = key absent). -/
structure UpdateRoleInput where
  name : Option JStr
  description : Option JStr
  permissionIds : Option (List JStr)

/-- Result of one `UpdateRoleUseCase.execute` run (the returned DTO is the
final entity state, which `RoleMapper.toDto` maps field-for-field) plus
whether `roleRepository.update` was invoked. -/
structure UpdateRoleOutcome where
  result : Result Role Err
  updateCalled : Bool
deriving Repr

/-- `parsePermissionIds`: validate each id in order, short-circuiting on
the first failure. -/
def UpdateRoleUseCase.parsePermissionIds : List JStr → Result (List PermissionId) Err
  | [] => .ok []
  | x :: xs =>
    match PermissionId.fromString x with
    | .fail e => .fail e
    | .ok pid =>
      match UpdateRoleUseCase.parsePermissionIds xs with
      | .fail e => .fail e
      | .ok rest => .ok (pid :: rest)

/-- `ensurePermissionsExist`: empty list passes; otherwise bulk-fetch and
fail with a `NotFoundError` listing the missing ids when fewer permissions
come back than were requested. -/
def UpdateRoleUseCase.ensurePermissionsExist (env : UpdateRoleEnv)
    (permissionIds : List PermissionId) : Result Unit Err :=
  if permissionIds = [] then .ok ()
  else
    match env.permissionFindByIds permissionIds with
    | .fail e => .fail e
    | .ok permissions =>
      if permissions.length ≠ permissionIds.length then
        let existing := permissions.map (fun permission => permission.id.value)
        let missingIds := (permissionIds.map PermissionId.value).filter
          (fun id => ¬ existing.contains id)
        .fail (.notFound "Permission" (List.intercalate (strCodes ",") missingIds))
      else .ok ()

/-- The `if (input.name && input.name.toUpperCase() !== role.name)` block:
conflict check against `existsByName`, then `changeName`.  A falsy
(absent or empty) name, or a name equal (after uppercasing) to the current
one, skips the block. -/
def UpdateRoleUseCase.nameStep (env : UpdateRoleEnv) (role : Role)
    (name : Option JStr) (now : Nat) : Result Role Err :=
  match name with
  | none => .ok role
  | some n =>
    if n ≠ [] ∧ jsUpper n ≠ role.name then
      match env.existsByName n with
      | .fail e => .fail e
      | .ok true => .fail (.conflict "Role" "name" n "Role name already exists")
      | .ok false =>
        match role.changeName n now with
        | (.fail e, _) => .fail e
        | (.ok _, role') => .ok role'
    else .ok role

/-- The `if (input.description)` block. -/
def UpdateRoleUseCase.descriptionStep (role : Role) (description : Option JStr)
    (now : Nat) : Result Role Err :=
  match description with
  | none => .ok role
  | some d =>
    if d ≠ [] then
      match role.changeDescription d now with
      | (.fail e, _) => .fail e
      | (.ok _, role') => .ok role'
    else .ok role

/-- The `if (input.permissionIds)` block (any supplied array, even empty,
is truthy): parse, existence-check, then `replacePermissions`. -/
def UpdateRoleUseCase.permissionsStep (env : UpdateRoleEnv) (role : Role)
    (permissionIds : Option (List JStr)) (now : Nat) : Result Role Err :=
  match permissionIds with
  | none => .ok role
  | some l =>
    match UpdateRoleUseCase.parsePermissionIds l with
    | .fail e => .fail e
    | .ok ids =>
      match UpdateRoleUseCase.ensurePermissionsExist env ids with
      | .fail e => .fail e
      | .ok _ =>
        match role.replacePermissions ids now with
        | (.fail e, _) => .fail e
        | (.ok _, role') => .ok role'

/-- `UpdateRoleUseCase.execute`: parse id, load role, `NotFound` when
absent, hard `Forbidden` guard on `isSystem`, then the three optional
mutation blocks in source order, then persist. -/
def UpdateRoleUseCase.execute (env : UpdateRoleEnv) (roleId : JStr)
    (input : UpdateRoleInput) (now : Nat) : UpdateRoleOutcome :=
  match RoleId.fromString roleId with
  | .fail e => ⟨.fail e, false⟩
  | .ok rid =>
    match env.roleFindById rid with
    | .fail e => ⟨.fail e, false⟩
    | .ok none => ⟨.fail (.notFound "Role" roleId), false⟩
    | .ok (some role) =>
      if role.isSystem then
        ⟨.fail (.forbidden "update" "Role" "System roles cannot be edited"), false⟩
      else
        match UpdateRoleUseCase.nameStep env role input.name now with
        | .fail e => ⟨.fail e, false⟩
        | .ok role1 =>
          match UpdateRoleUseCase.descriptionStep role1 input.description now with
          | .fail e => ⟨.fail e, false⟩
          | .ok role2 =>
            match UpdateRoleUseCase.permissionsStep env role2 input.permissionIds now with
            | .fail e => ⟨.fail e, false⟩
            | .ok role3 =>
              match env.roleUpdate role3 with
              | .fail e => ⟨.fail e, true⟩
              | .ok _ => ⟨.ok role3, true⟩

/-! ## Claim C3: the `isSystem` guard -/

/-- C3: whenever the role repository returns a role with `isSystem = true`,
both `UpdateRoleUseCase.execute` (for every input) and
`DeleteRoleUseCase.execute` return a `ForbiddenError` and never invoke the
repository's `update` / `delete` operations. -/
theorem system_roles_guarded (delEnv : DeleteRoleEnv) (updEnv : UpdateRoleEnv)
    (roleId : JStr) (rid : RoleId) (role : Role) (input : UpdateRoleInput)
    (now : Nat)
    (hparse : RoleId.fromString roleId = .ok rid)
    (hsys : role.isSystem = true) :
    (delEnv.roleFindById rid = .ok (some role) →
      DeleteRoleUseCase.execute delEnv roleId =
        ⟨.fail (.forbidden "delete" "Role" "System roles cannot be deleted"),
         false⟩) ∧
    (updEnv.roleFindById rid = .ok (some role) →
      UpdateRoleUseCase.execute updEnv roleId input now =
        ⟨.fail (.forbidden "update" "Role" "System roles cannot be edited"),
         false⟩) := by
  constructor
  · intro hfind
    unfold DeleteRoleUseCase.execute
    rw [hparse]
    simp [hfind, hsys]
  · intro hfind
    unfold UpdateRoleUseCase.execute
    rw [hparse]
    simp [hfind, hsys]

/-- A system role for the witness. -/
def sampleSystemRole : Role :=
  ⟨⟨strCodes "33333333-3333-4333-a333-333333333333"⟩,
   strCodes "ADMIN", strCodes "Administrator role", true,
   [samplePermission.id], 1, 2⟩

/-- Witness for `system_roles_guarded`: repositories that return
`sampleSystemRole`; both use cases refuse with `ForbiddenError` and the
mutating repository operations are never called. -/
theorem system_roles_guarded_witness :
    DeleteRoleUseCase.execute
        ⟨fun _ => .ok (some sampleSystemRole), fun _ => .ok true⟩
        (strCodes "33333333-3333-4333-a333-333333333333") =
      ⟨.fail (.forbidden "delete" "Role" "System roles cannot be deleted"),
       false⟩ ∧
    UpdateRoleUseCase.execute
        ⟨fun _ => .ok (some sampleSystemRole), fun _ => .ok false,
         fun _ => .ok [], fun _ => .ok ()⟩
        (strCodes "33333333-3333-4333-a333-333333333333")
        ⟨some (strCodes "NEWNAME"), none, none⟩ 9 =
      ⟨.fail (.forbidden "update" "Role" "System roles cannot be edited"),
       false⟩ := by
  have h := system_roles_guarded
    ⟨fun _ => .ok (some sampleSystemRole), fun _ => .ok true⟩
    ⟨fun _ => .ok (some sampleSystemRole), fun _ => .ok false,
     fun _ => .ok [], fun _ => .ok ()⟩
    (strCodes "33333333-3333-4333-a333-333333333333")
    ⟨strCodes "33333333-3333-4333-a333-333333333333"⟩
    sampleSystemRole ⟨some (strCodes "NEWNAME"), none, none⟩ 9
    (by decide) rfl
  exact ⟨h.1 rfl, h.2 rfl⟩

/-! ## Claim C5: wholesale permission replacement -/

theorem PermissionId.fromString_ok {x : JStr} {pid : PermissionId}
    (h : PermissionId.fromString x = .ok pid) : pid.value = x := by
  unfold PermissionId.fromString at h
  split_ifs at h
  · cases h; rfl

theorem parsePermissionIds_ok : ∀ {l : List JStr} {ids : List PermissionId},
    UpdateRoleUseCase.parsePermissionIds l = .ok ids →
    ids.map PermissionId.value = l := by
  intro l
  induction l with
  | nil =>
    intro ids h
    unfold UpdateRoleUseCase.parsePermissionIds at h
    cases h; rfl
  | cons x xs ih =>
    intro ids h
    unfold UpdateRoleUseCase.parsePermissionIds at h
    cases hf : PermissionId.fromString x with
    | fail e => rw [hf] at h; simp at h
    | ok pid =>
      rw [hf] at h
      cases hr : UpdateRoleUseCase.parsePermissionIds xs with
      | fail e => rw [hr] at h; simp at h
      | ok rest =>
        rw [hr] at h
        simp only [Result.ok.injEq] at h
        subst h
        simp [PermissionId.fromString_ok hf, ih hr]

theorem replacePermissions_ok {r : Role} {ids : List PermissionId} {now : Nat}
    {res : Unit} {r' : Role}
    (h : r.replacePermissions ids now = (.ok res, r')) :
    r' = ({ r with
            permissionIds := ids,
            updatedAt :=
              (if sameIdSet r.permissionIds ids then r.updatedAt else now) }) ∧
    (ids.map PermissionId.value).Nodup := by
  unfold Role.replacePermissions at h
  by_cases hd : (ids.map PermissionId.value).Nodup
  · rw [if_neg (not_not_intro hd)] at h
    injection h with h1 h2
    exact ⟨h2.symm, hd⟩
  · rw [if_pos hd] at h
    simp at h

theorem changeName_ok {r : Role} {n : JStr} {now : Nat} {res : Unit} {r' : Role}
    (h : Role.changeName r n now = (.ok res, r')) :
    r' = { r with name := jsTrim (jsUpper n), updatedAt := now } := by
  unfold Role.changeName at h
  cases hv : Role.validateName n with
  | fail e => rw [hv] at h; simp at h
  | ok u =>
    rw [hv] at h
    injection h with h1 h2
    exact h2.symm

theorem changeDescription_ok {r : Role} {d : JStr} {now : Nat} {res : Unit}
    {r' : Role} (h : Role.changeDescription r d now = (.ok res, r')) :
    r' = { r with description := jsTrim d, updatedAt := now } := by
  unfold Role.changeDescription at h
  cases hv : Role.validateDescription d with
  | fail e => rw [hv] at h; simp at h
  | ok u =>
    rw [hv] at h
    injection h with h1 h2
    exact h2.symm

theorem nameStep_preserves {env : UpdateRoleEnv} {role : Role}
    {name : Option JStr} {now : Nat} {role' : Role}
    (h : UpdateRoleUseCase.nameStep env role name now = .ok role') :
    role'.permissionIds = role.permissionIds := by
  cases name with
  | none =>
    simp only [UpdateRoleUseCase.nameStep] at h
    cases h; rfl
  | some n =>
    simp only [UpdateRoleUseCase.nameStep] at h
    split_ifs at h with hc
    · cases he : env.existsByName n with
      | fail e => rw [he] at h; simp at h
      | ok b =>
        rw [he] at h
        cases b
        · cases hcn : Role.changeName role n now with
          | mk res r2 =>
            rw [hcn] at h
            cases res with
            | fail e => simp at h
            | ok u =>
              simp only [Result.ok.injEq] at h
              subst h
              rw [changeName_ok hcn]
        · simp at h
    · cases h; rfl

theorem descriptionStep_preserves {role : Role} {description : Option JStr}
    {now : Nat} {role' : Role}
    (h : UpdateRoleUseCase.descriptionStep role description now = .ok role') :
    role'.permissionIds = role.permissionIds := by
  cases description with
  | none =>
    simp only [UpdateRoleUseCase.descriptionStep] at h
    cases h; rfl
  | some d =>
    simp only [UpdateRoleUseCase.descriptionStep] at h
    split_ifs at h with hc
    · cases hcd : Role.changeDescription role d now with
      | mk res r2 =>
        rw [hcd] at h
        cases res with
        | fail e => simp at h
        | ok u =>
          simp only [Result.ok.injEq] at h
          subst h
          rw [changeDescription_ok hcd]
    · cases h; rfl

theorem permissionsStep_some_ok {env : UpdateRoleEnv} {role : Role}
    {l : List JStr} {now : Nat} {role' : Role}
    (h : UpdateRoleUseCase.permissionsStep env role (some l) now = .ok role') :
    role'.permissionIds.map PermissionId.value = l ∧
    (role'.permissionIds.map PermissionId.value).Nodup ∧
    role'.updatedAt =
      (if sameIdSet role.permissionIds role'.permissionIds then role.updatedAt
       else now) := by
  simp only [UpdateRoleUseCase.permissionsStep] at h
  split at h
  · simp at h
  · rename_i ids hp
    split at h
    · simp at h
    · split at h
      · simp at h
      · rename_i v r2 hrp
        simp only [Result.ok.injEq] at h
        subst h
        obtain ⟨hr2, hnd⟩ := replacePermissions_ok hrp
        subst hr2
        exact ⟨parsePermissionIds_ok hp, by simpa using hnd, rfl⟩

/-- C5: whenever `UpdateRoleUseCase.execute` succeeds with `permissionIds`
supplied, the returned role's permission-id set equals the supplied list,
that list carries no duplicate ids, and `updatedAt` has been set to the
current time whenever the set differs from the stored role's previous set
(`replacePermissions` performs a duplicate-free wholesale replacement and
bumps `updatedAt` on any change). -/
theorem update_role_replaces_permissions (env : UpdateRoleEnv) (roleId : JStr)
    (input : UpdateRoleInput) (now : Nat) (l : List JStr) (role' : Role)
    (hl : input.permissionIds = some l)
    (hok : (UpdateRoleUseCase.execute env roleId input now).result = .ok role') :
    role'.permissionIds.map PermissionId.value = l ∧
    (role'.permissionIds.map PermissionId.value).Nodup ∧
    (∀ rid role0, RoleId.fromString roleId = .ok rid →
      env.roleFindById rid = .ok (some role0) →
      sameIdSet role0.permissionIds role'.permissionIds = false →
      role'.updatedAt = now) := by
  unfold UpdateRoleUseCase.execute at hok
  split at hok
  · simp at hok
  · rename_i rid0 hparse
    split at hok
    · simp at hok
    · simp at hok
    · rename_i role0 hfind
      split at hok
      · simp at hok
      · rename_i hsys
        split at hok
        · simp at hok
        · rename_i role1 hname
          split at hok
          · simp at hok
          · rename_i role2 hdesc
            split at hok
            · simp at hok
            · rename_i role3 hperm
              split at hok
              · simp at hok
              · simp only [Result.ok.injEq] at hok
                subst hok
                rw [hl] at hperm
                obtain ⟨h1, h2, h3⟩ := permissionsStep_some_ok hperm
                refine ⟨h1, h2, ?_⟩
                intro rid roleStored hp hf hchanged
                rw [hparse] at hp
                injection hp with hp
                subst hp
                rw [hfind] at hf
                injection hf with hf
                injection hf with hf
                subst hf
                have hpe : role2.permissionIds = role0.permissionIds :=
                  (descriptionStep_preserves hdesc).trans (nameStep_preserves hname)
                rw [h3, hpe, hchanged]
                simp

/-- Permission referenced in the C5 witness run. -/
def updWitnessPermission : Permission :=
  ⟨⟨strCodes "44444444-4444-4444-8444-444444444444"⟩,
   strCodes "roles", strCodes "update", strCodes "Update roles", 0⟩

/-- Repositories for the C5 witness: the stored role is `sampleRole`, the
requested permission id resolves, persistence succeeds. -/
def updWitnessEnv : UpdateRoleEnv :=
  ⟨fun _ => .ok (some sampleRole), fun _ => .ok false,
   fun _ => .ok [updWitnessPermission], fun _ => .ok ()⟩

/-- The entity state `UpdateRoleUseCase.execute` returns in the C5 witness
run: permission set replaced wholesale, `updatedAt` bumped to 9. -/
def updWitnessRole : Role :=
  { sampleRole with
    permissionIds := [⟨strCodes "44444444-4444-4444-8444-444444444444"⟩],
    updatedAt := 9 }

/-- Witness for `update_role_replaces_permissions`: a successful update of
`sampleRole` supplying one fresh permission id replaces the set with
exactly that id (no duplicates) and sets `updatedAt` to the call time. -/
theorem update_role_replaces_permissions_witness :
    updWitnessRole.permissionIds.map PermissionId.value
      = [strCodes "44444444-4444-4444-8444-444444444444"] ∧
    (updWitnessRole.permissionIds.map PermissionId.value).Nodup ∧
    updWitnessRole.updatedAt = 9 := by
  have h := update_role_replaces_permissions updWitnessEnv
    (strCodes "11111111-1111-4111-8111-111111111111")
    ⟨none, none, some [strCodes "44444444-4444-4444-8444-444444444444"]⟩ 9
    [strCodes "44444444-4444-4444-8444-444444444444"] updWitnessRole
    rfl (by decide)
  exact ⟨h.1, h.2.1,
    h.2.2 ⟨strCodes "11111111-1111-4111-8111-111111111111"⟩ sampleRole
      (by decide) rfl (by decide)⟩

/-! ## `ListUsersUseCase` (list-users.use-case.ts) and the pagination helper -/

/-- The `pagination` envelope of `PaginatedResponseDto`. -/
structure PaginationDto where
  total : Nat
  limit : Nat
  offset : Nat
  hasMore : Bool
  currentPage : Nat
  totalPages : Nat
deriving DecidableEq, Repr

/-- `PaginatedResponseDto<T>`. -/
structure PaginatedResponseDto (T : Type) where
  data : List T
  pagination : PaginationDto
deriving DecidableEq, Repr

/-- Modelled from the spec: `modules/common/services/pagination.service.ts`
is not in the dump (only its callers and tests are).
`PaginationService.validateParams` validates `(limit?, offset?)` against
bounds `[1,100]` / `[0,∞)` with defaults 20 / 0. -/
def PaginationService.validateParams (limit offset : Option Int) :
    Result (Nat × Nat) Err :=
  if limit.getD 20 < 1 ∨ 100 < limit.getD 20 then
    .fail (.validation "limit" "Limit must be between 1 and 100")
  else if offset.getD 0 < 0 then
    .fail (.validation "offset" "Offset must be a non-negative number")
  else
    .ok ((limit.getD 20).toNat, (offset.getD 0).toNat)

/-- Modelled from the spec: `PaginationService.buildResponse` computes
`hasMore = offset+limit < total`, `currentPage = floor(offset/limit)+1`,
`totalPages = ceil(total/limit)` (0 if total is 0). -/
def PaginationService.buildResponse {T : Type} (data : List T)
    (total limit offset : Nat) : PaginatedResponseDto T :=
  ⟨data,
   ⟨total, limit, offset, decide (offset + limit < total), offset / limit + 1,
    if total = 0 then 0 else (total + limit - 1) / limit⟩⟩

/-- `UserMapper.toDtoList`. -/
def UserMapper.toDtoList (users : List User) : List UserResponseDto :=
  users.map UserMapper.toDto

/-- Collaborators of `ListUsersUseCase`: `findAll(limit, offset)` and
`count()` (issued via `Promise.all`; both are evaluated and `findAll`'s
failure takes precedence, as in the source's check order). -/
structure ListUsersEnv where
  findAll : Nat → Nat → Result (List User) Err
  count : Result Nat Err

/-- `ListUsersUseCase.execute(limit?, offset?)`. -/
def ListUsersUseCase.execute (env : ListUsersEnv) (limit offset : Option Int) :
    Result (PaginatedResponseDto UserResponseDto) Err :=
  match PaginationService.validateParams limit offset with
  | .fail e => .fail e
  | .ok (validLimit, validOffset) =>
    match env.findAll validLimit validOffset with
    | .fail e => .fail e
    | .ok users =>
      match env.count with
      | .fail e => .fail e
      | .ok total =>
        .ok (PaginationService.buildResponse (UserMapper.toDtoList users)
          total validLimit validOffset)

/-- C7: for every invocation whose pagination parameters validate to
`L ∈ [1,100]`, `O ≥ 0` against a repository reporting total `T`, the
returned envelope carries exactly `hasMore = (O + L < T)`,
`currentPage = O / L + 1` (floor division) and
`totalPages = ⌈T / L⌉` (computed as `(T + L - 1) / L`, and `0` when
`T = 0`). -/
theorem list_users_pagination (env : ListUsersEnv) (limit offset : Option Int)
    (L O T : Nat) (users : List User)
    (hv : PaginationService.validateParams limit offset = .ok (L, O))
    (hf : env.findAll L O = .ok users) (hc : env.count = .ok T) :
    ListUsersUseCase.execute env limit offset =
      .ok ⟨UserMapper.toDtoList users,
           ⟨T, L, O, decide (O + L < T), O / L + 1,
            if T = 0 then 0 else (T + L - 1) / L⟩⟩ ∧
    1 ≤ L ∧ L ≤ 100 ∧
    (T = 0 → (if T = 0 then 0 else (T + L - 1) / L) = 0) := by
  refine ⟨?_, ?_, ?_, fun ht => by simp [ht]⟩
  · unfold ListUsersUseCase.execute
    rw [hv]
    simp only [hf, hc]
    rfl
  · unfold PaginationService.validateParams at hv
    split_ifs at hv with h1 h2
    injection hv with hv
    injection hv with hv1 hv2
    subst hv1
    push_neg at h1
    omega
  · unfold PaginationService.validateParams at hv
    split_ifs at hv with h1 h2
    injection hv with hv
    injection hv with hv1 hv2
    subst hv1
    push_neg at h1
    omega

/-- Repository for the C7 witness: 10 users in total, one row returned for
the requested page. -/
def listUsersWitnessEnv : ListUsersEnv :=
  ⟨fun _ _ => .ok [sampleUser], .ok 10⟩

/-- Witness for `list_users_pagination` — the spec's scenario:
`ListUsersUseCase.execute(1, 2)` against a repository reporting 10 total
and 1 returned row yields pagination
`{ total: 10, limit: 1, offset: 2, hasMore: true, currentPage: 3,
totalPages: 10 }`. -/
theorem list_users_pagination_witness :
    ListUsersUseCase.execute listUsersWitnessEnv (some 1) (some 2) =
      .ok ⟨[UserMapper.toDto sampleUser], ⟨10, 1, 2, true, 3, 10⟩⟩ := by
  have h := list_users_pagination listUsersWitnessEnv (some 1) (some 2)
    1 2 10 [sampleUser] (by decide) rfl rfl
  exact h.1.trans (by decide)
